import Mathlib

/-!
Verification of the WeatherBus LoRaWAN ingestor.

Part 1 models `src/payload-formatter.js` (the binary telemetry decoder
`decodeUplink`).  Bytes are modelled as natural numbers; JavaScript numbers
are modelled as `JsNum`: an exact rational for finite values (every finite
IEEE double is a rational, so IEEE bit patterns decode exactly), plus NaN
and the two infinities.  JavaScript's floating-point division by the
constants 100 and 10 is modelled as exact rational division.
-/

namespace WeatherBus

/-- A JavaScript number: a finite value (an exact rational) or one of the
IEEE special values. -/
inductive JsNum where
  | num (q : ℚ)
  | nan
  | inf
  | negInf
deriving DecidableEq, Repr

/-- Little-endian byte assembly: `leNat [b0, b1, ...] = b0 + 256*b1 + ...`.
This models how a `DataView` reads multi-byte values with
`littleEndian = true`. -/
def leNat (bs : List ℕ) : ℕ :=
  bs.foldr (fun b acc => b + 256 * acc) 0

/-- Two's-complement reading of a 16-bit pattern, as `DataView.getInt16`. -/
def int16OfNat (n : ℕ) : ℤ :=
  if n % 65536 < 32768 then (n % 65536 : ℤ) else (n % 65536 : ℤ) - 65536

/-- Bit-exact decoding of an IEEE-754 binary floating-point bit pattern with
`ebits` exponent bits and `mbits` mantissa bits (8/23 for `getFloat32`,
11/52 for `getFloat64`).  Finite values are produced exactly as rationals. -/
def decodeFloatBits (ebits mbits : ℕ) (bits : ℕ) : JsNum :=
  let s := (bits >>> (ebits + mbits)) % 2
  let e := (bits >>> mbits) % 2 ^ ebits
  let m := bits % 2 ^ mbits
  let bias : ℤ := 2 ^ (ebits - 1) - 1
  if e = 2 ^ ebits - 1 then
    if m = 0 then (if s = 1 then .negInf else .inf) else .nan
  else
    let mag : ℚ :=
      if e = 0 then (m : ℚ) * (2 : ℚ) ^ ((1 : ℤ) - bias - (mbits : ℤ))
      else (((2 ^ mbits + m : ℕ) : ℚ)) * (2 : ℚ) ^ ((e : ℤ) - bias - (mbits : ℤ))
    .num (if s = 1 then -mag else mag)

/-- The per-format value decoding of `decodeUplink`'s `switch (fmt)`:
case 0 `getUint8(0)`, case 1 `getUint16(0, true)`, case 2
`getFloat32(0, true)`, case 3 `getFloat64(0, true)`, case 4
`getInt16(0, true) / 100`, case 5 `getUint16(0, true) / 10`.
(The JS `default` arm is unreachable: unknown formats are rejected
before the switch by the `FORMAT_LEN` lookup.) -/
def decodeValue (fmt : ℕ) (raw : List ℕ) : JsNum :=
  match fmt with
  | 0 => .num (raw.headD 0)
  | 1 => .num (leNat raw)
  | 2 => decodeFloatBits 8 23 (leNat raw)
  | 3 => decodeFloatBits 11 52 (leNat raw)
  | 4 => .num ((int16OfNat (leNat raw) : ℚ) / 100)
  | 5 => .num ((leNat raw : ℚ) / 10)
  | _ => .num 0

/-- The `FORMAT_LEN` table of `decodeUplink`; `none` models a missing key
(`FORMAT_LEN[fmt]` being `undefined`, which fails the JS `!len` check). -/
def FORMAT_LEN (fmt : ℕ) : Option ℕ :=
  match fmt with
  | 0 => some 1
  | 1 => some 2
  | 2 => some 4
  | 3 => some 8
  | 4 => some 2
  | 5 => some 2
  | _ => none

/-- One decoded sensor object `{ type, index, format, value }`. -/
structure Sensor where
  type : ℕ
  index : ℕ
  format : ℕ
  value : JsNum
deriving DecidableEq, Repr

/-- One decoded slave object `{ id, sensors }`. -/
structure Slave where
  id : ℕ
  sensors : List Sensor
deriving DecidableEq, Repr

/-- The result object `{ data: { slaves }, warnings, errors }`. -/
structure Decoded where
  slaves : List Slave
  warnings : List String
  errors : List String
deriving DecidableEq, Repr

/-- The inner `for (let i = 0; i < sensorCount; i++)` loop of
`decodeUplink`: parse `count` sensors from the remaining bytes.  On success
returns the sensors together with the number of bytes consumed; early
`return`s with an error message are modelled by `Except.error`.  Mirrors the
source's check order: header bounds check, then `FORMAT_LEN` lookup, then
value bounds check; `fmt = hdr >> 5`, `index = hdr & 0x1F`. -/
def parseSensors : ℕ → List ℕ → Except String (List Sensor × ℕ)
  | 0, _ => .ok ([], 0)
  | n + 1, ty :: hdr :: rest =>
    let fmt := hdr >>> 5
    match FORMAT_LEN fmt with
    | none => .error ("Unknown format " ++ toString fmt)
    | some len =>
      if len ≤ rest.length then
        match parseSensors n (rest.drop len) with
        | .error e => .error e
        | .ok (ss, used) =>
          .ok (⟨ty, hdr &&& 0x1F, fmt, decodeValue fmt (rest.take len)⟩ :: ss, 2 + len + used)
      else .error "Truncated sensor value"
  | _ + 1, _ => .error "Truncated sensor header"

/-- The outer `while (pos + 3 <= bytes.length)` loop of `decodeUplink`:
read a big-endian slave id `(bytes[pos] << 8) | bytes[pos+1]`, a sensor
count byte, then the sensors.  An error inside a slave block returns the
slaves accumulated so far (the partially parsed block is dropped, exactly
as in the source, where `slaves.push` runs only after the sensor loop).
After the loop, leftover bytes (`pos !== bytes.length`) yield the
extra-bytes warning. -/
def decodeLoop : List ℕ → List Slave → Decoded
  | a :: b :: c :: rest, acc =>
    match parseSensors c rest with
    | .error e => ⟨acc, [], [e]⟩
    | .ok (ss, used) => decodeLoop (rest.drop used) (acc ++ [⟨(a <<< 8) ||| b, ss⟩])
  | rest, acc => ⟨acc, if rest.isEmpty then [] else ["Extra bytes at end of payload"], []⟩
termination_by bytes _ => bytes.length
decreasing_by
  simp [List.length_drop]
  omega

/-- `decodeUplink` from `src/payload-formatter.js`, on `input.bytes`. -/
def decodeUplink (bytes : List ℕ) : Decoded :=
  decodeLoop bytes []

/-!
Verification-side wire encoder, used to state round-trip properties about
`decodeUplink`.  A `SensorEnc` is the pre-image of one sensor on the wire:
its type byte, format code, index, and raw value bytes.
-/

/-- Wire-level description of one encoded sensor. -/
structure SensorEnc where
  ty : ℕ
  fmt : ℕ
  idx : ℕ
  raw : List ℕ
deriving DecidableEq, Repr

/-- Wire-level description of one encoded slave block. -/
structure FrameEnc where
  id : ℕ
  sensors : List SensorEnc
deriving DecidableEq, Repr

/-- A sensor encoding is well formed when the type fits a byte, the index
fits the low 5 header bits, the format is in the table with the matching
number of raw value bytes, and the raw bytes are bytes. -/
def WFsensor (e : SensorEnc) : Prop :=
  e.ty < 256 ∧ e.idx < 32 ∧ FORMAT_LEN e.fmt = some e.raw.length ∧ ∀ b ∈ e.raw, b < 256

/-- A slave block is well formed when its id fits 16 bits, its sensor count
fits the count byte, and all its sensors are well formed. -/
def WFframe (f : FrameEnc) : Prop :=
  f.id < 65536 ∧ f.sensors.length < 256 ∧ ∀ e ∈ f.sensors, WFsensor e

/-- All slave blocks of a payload are well formed. -/
def WFframes (fs : List FrameEnc) : Prop := ∀ f ∈ fs, WFframe f

instance : DecidablePred WFsensor := fun e => by unfold WFsensor; infer_instance
instance : DecidablePred WFframe := fun f => by unfold WFframe; infer_instance
instance : DecidablePred WFframes := fun fs => by unfold WFframes; infer_instance

/-- Encode one sensor: type byte, then the packed header byte
(top 3 bits the format, low 5 bits the index), then the raw value bytes. -/
def encodeSensor (e : SensorEnc) : List ℕ :=
  e.ty :: (32 * e.fmt + e.idx) :: e.raw

/-- Concatenated sensor encodings. -/
def encodeSensors : List SensorEnc → List ℕ
  | [] => []
  | e :: es => encodeSensor e ++ encodeSensors es

/-- Encode one slave block: 16-bit BIG-endian id, count byte, sensors. -/
def encodeFrame (f : FrameEnc) : List ℕ :=
  f.id / 256 :: f.id % 256 :: f.sensors.length :: encodeSensors f.sensors

/-- Concatenated slave block encodings. -/
def encodeFrames : List FrameEnc → List ℕ
  | [] => []
  | f :: fs => encodeFrame f ++ encodeFrames fs

/-- The decoded form a well-formed sensor encoding must produce: the value
is decoded from the raw bytes by the per-format rule (little-endian). -/
def decodedSensor (e : SensorEnc) : Sensor :=
  { type := e.ty, index := e.idx, format := e.fmt, value := decodeValue e.fmt e.raw }

/-- The decoded form a well-formed slave block must produce. -/
def decodedFrame (f : FrameEnc) : Slave :=
  { id := f.id, sensors := f.sensors.map decodedSensor }

/-!
Part 2 models `src/main.go`: the envelope normalizer `parseUplink` and the
ingestion pipeline `handleMessage`.

Modelling choices: `time.Time` is a natural number whose zero value is the
Go zero time (`IsZero`); `time.Now().UTC()` is the `now` field of the
environment.  The result of `encoding/json.Unmarshal` into `DirectUp` is
taken as input (`none` models an unmarshal error), since JSON parsing
itself is standard-library code outside this repository.  Database effects
are modelled explicitly: every `pool.Exec` is recorded as a `DBCall`, and
the database state is threaded through.  Non-conflict insert failures
(`MeasurementWriteFailure`) are injected through the environment's
`insertFails` oracle; dimension upserts are modelled as always succeeding.
-/

/-- `end_device_ids` of the TTN JSON envelope. -/
structure EndDeviceIDs where
  deviceID : String
  devEUI : String
  appID : String
deriving DecidableEq, Repr

/-- One `rx_metadata` entry (the fields `handleMessage` reads). -/
structure RxMetadataGo where
  gatewayID : String
  gatewayEUI : String
  location : Option (ℚ × ℚ)
deriving DecidableEq, Repr

/-- One sensor object of the already-decoded payload, as unmarshalled by Go
(`Format`, `Index`, `Type` are Go `int`s, `Value` a `float64`, modelled as
an exact rational). -/
structure SensorGo where
  format : ℤ
  index : ℤ
  type : ℤ
  value : ℚ
deriving DecidableEq, Repr

/-- One slave object of the already-decoded payload. -/
structure SlaveGo where
  id : ℤ
  sensors : List SensorGo
deriving DecidableEq, Repr

/-- `decoded_payload` of the uplink message. -/
structure DecodedPayloadGo where
  slaves : List SlaveGo
deriving DecidableEq, Repr

/-- `uplink_message` (the fields `parseUplink` / `handleMessage` read). -/
structure UplinkMsgGo where
  decodedPayload : DecodedPayloadGo
  rxMetadata : List RxMetadataGo
  receivedAt : ℕ
deriving DecidableEq, Repr

/-- The `DirectUp` document shape of `main.go`. -/
structure DirectUp where
  endDeviceIDs : EndDeviceIDs
  receivedAt : ℕ
  uplinkMessage : UplinkMsgGo
deriving DecidableEq, Repr

/-- The `Parsed` record produced by `parseUplink`. -/
structure Parsed where
  when : ℕ
  stationEUI : String
  stationDevID : String
  appID : String
  msg : UplinkMsgGo
deriving DecidableEq, Repr

/-- `parseUplink` from `main.go`.  `u` is the result of `json.Unmarshal`
(`none` when unmarshalling errors); a parsed document is accepted exactly
when `end_device_ids.dev_eui` is non-empty.  Timestamp resolution: the
uplink-message-level received time, else the envelope-level received time,
else `now`; the station EUI is upper-cased. -/
def parseUplink (u : Option DirectUp) (now : ℕ) : Except String Parsed :=
  match u with
  | some du =>
    if du.endDeviceIDs.devEUI ≠ "" then
      let when0 := du.uplinkMessage.receivedAt
      let when1 := if when0 = 0 then du.receivedAt else when0
      let when2 := if when1 = 0 then now else when1
      .ok { when := when2
            stationEUI := du.endDeviceIDs.devEUI.toUpper
            stationDevID := du.endDeviceIDs.deviceID
            appID := du.endDeviceIDs.appID
            msg := du.uplinkMessage }
    else .error "unknown TTN uplink shape (expecting direct /up)"
  | none => .error "unknown TTN uplink shape (expecting direct /up)"

/-- `validSensorTypes` from `main.go` (the keys of the Go map). -/
def validSensorTypes : List ℤ :=
  [1, 2, 3, 4, 5, 6, 7, 8, 9, 10, 11, 12, 13, 14, 15]

/-- `nullIfEmpty` from `main.go`. -/
def nullIfEmpty (s : String) : Option String :=
  if s = "" then none else some s

/-- One row of the `measurements` table, in the column order of
`insertMeasurementSQL`. -/
structure MeasurementRow where
  time : ℕ
  stationEUI : String
  stationDevID : Option String
  slaveID : ℤ
  sensorType : ℤ
  sensorIndex : ℤ
  value : ℚ
  format : ℤ
  gatewayID : Option String
  latitude : Option ℚ
  longitude : Option ℚ
deriving DecidableEq, Repr

/-- The uniqueness key of the `measurements` table:
`UNIQUE (time, station_eui, slave_id, sensor_type, sensor_index)`. -/
def measKey (r : MeasurementRow) : ℕ × String × ℤ × ℤ × ℤ :=
  (r.time, r.stationEUI, r.slaveID, r.sensorType, r.sensorIndex)

/-- Database state: the persisted rows of the three tables touched by
`handleMessage`. -/
structure DB where
  measurements : List MeasurementRow
  stations : List (String × String × Option String)
  gateways : List (String × String)
deriving DecidableEq, Repr

/-- Modelled from the spec: PostgreSQL's execution of
`insertMeasurementSQL` (`INSERT ... ON CONFLICT DO NOTHING` against
`UNIQUE (time, station_eui, slave_id, sensor_type, sensor_index)`).  A
duplicate key is silently ignored and the statement completes without
error; otherwise the row is appended. -/
def insertMeasurement (db : DB) (r : MeasurementRow) : DB :=
  if db.measurements.any (fun x => measKey x = measKey r) then db
  else { db with measurements := db.measurements ++ [r] }

/-- Modelled from the spec: PostgreSQL's execution of `upsertStationSQL`
(insert or last-write-wins update keyed on `station_eui`). -/
def upsertStation (db : DB) (eui appID : String) (devID : Option String) : DB :=
  { db with stations := db.stations.filter (fun s => s.1 ≠ eui) ++ [(eui, appID, devID)] }

/-- Modelled from the spec: PostgreSQL's execution of `upsertGatewaySQL`
(insert or last-write-wins update keyed on `gateway_id`). -/
def upsertGateway (db : DB) (gwID eui : String) : DB :=
  { db with gateways := db.gateways.filter (fun g => g.1 ≠ gwID) ++ [(gwID, eui)] }

/-- One `pool.Exec` call issued by `handleMessage`. -/
inductive DBCall where
  | station (eui appID : String) (devID : Option String)
  | gateway (gwID eui : String)
  | measurement (r : MeasurementRow)
deriving DecidableEq, Repr

/-- The environment of one `handleMessage` run: the current time and the
injected non-conflict failure oracle for measurement inserts. -/
structure Env where
  now : ℕ
  insertFails : MeasurementRow → Bool

/-- The observable outcome of one `handleMessage` run: the final database,
the trace of `pool.Exec` calls, and the final log line
`"ingested %d measurements from %s"` (`none` when parsing failed and the
handler returned early). -/
structure IngestSummary where
  count : ℕ
  stationEUI : String
deriving DecidableEq, Repr

/-- Result of a `handleMessage` run. -/
structure HandleResult where
  db : DB
  calls : List DBCall
  summary : Option IngestSummary
deriving DecidableEq, Repr

/-- Gateway attribution in `handleMessage`: gateway id and location are
taken from `RxMetadata[0]` only; absent metadata leaves them empty/nil. -/
def gwInfo (msg : UplinkMsgGo) : String × Option ℚ × Option ℚ :=
  match msg.rxMetadata with
  | [] => ("", none, none)
  | rm :: _ =>
    match rm.location with
    | none => (rm.gatewayID, none, none)
    | some (la, lo) => (rm.gatewayID, some la, some lo)

/-- The measurement row `handleMessage` binds for one sensor reading. -/
def mkRow (p : Parsed) (gwID : String) (lat lon : Option ℚ) (sid : ℤ) (m : SensorGo) :
    MeasurementRow :=
  { time := p.when
    stationEUI := p.stationEUI
    stationDevID := nullIfEmpty p.stationDevID
    slaveID := sid
    sensorType := m.type
    sensorIndex := m.index
    value := m.value
    format := m.format
    gatewayID := nullIfEmpty gwID
    latitude := lat
    longitude := lon }

/-- The inner `for _, m := range s.Sensors` loop: skip unknown sensor
types with only a diagnostic; otherwise issue the insert; a failed insert
is logged and skipped; a successful insert increments `count`. -/
def insertSensors (env : Env) (p : Parsed) (gwID : String) (lat lon : Option ℚ)
    (sid : ℤ) : List SensorGo → DB → DB × List DBCall × ℕ
  | [], db => (db, [], 0)
  | m :: ms, db =>
    if m.type ∈ validSensorTypes then
      let r := mkRow p gwID lat lon sid m
      if env.insertFails r then
        let (db', cs, k) := insertSensors env p gwID lat lon sid ms db
        (db', .measurement r :: cs, k)
      else
        let (db', cs, k) := insertSensors env p gwID lat lon sid ms (insertMeasurement db r)
        (db', .measurement r :: cs, k + 1)
    else
      insertSensors env p gwID lat lon sid ms db

/-- The outer `for _, s := range p.Msg.DecodedPayload.Slaves` loop. -/
def insertSlaves (env : Env) (p : Parsed) (gwID : String) (lat lon : Option ℚ) :
    List SlaveGo → DB → DB × List DBCall × ℕ
  | [], db => (db, [], 0)
  | s :: ss, db =>
    let (db1, cs1, k1) := insertSensors env p gwID lat lon s.id s.sensors db
    let (db2, cs2, k2) := insertSlaves env p gwID lat lon ss db1
    (db2, cs1 ++ cs2, k1 + k2)

/-- `handleMessage` from `main.go`, with database effects made explicit. -/
def handleMessage (env : Env) (u : Option DirectUp) (db : DB) : HandleResult :=
  match parseUplink u env.now with
  | .error _ => ⟨db, [], none⟩
  | .ok p =>
    let (db1, cs1) :=
      if p.appID ≠ "" ∧ p.stationEUI ≠ "" then
        (upsertStation db p.stationEUI p.appID (nullIfEmpty p.stationDevID),
         [DBCall.station p.stationEUI p.appID (nullIfEmpty p.stationDevID)])
      else (db, [])
    let (gwID, lat, lon) := gwInfo p.msg
    let (db2, cs2) :=
      match p.msg.rxMetadata with
      | [] => (db1, [])
      | rm :: _ =>
        if rm.gatewayID ≠ "" then
          (upsertGateway db1 rm.gatewayID rm.gatewayEUI,
           [DBCall.gateway rm.gatewayID rm.gatewayEUI])
        else (db1, [])
    let (db3, cs3, count) := insertSlaves env p gwID lat lon p.msg.decodedPayload.slaves db2
    ⟨db3, cs1 ++ cs2 ++ cs3, some ⟨count, p.stationEUI⟩⟩

/-- The measurement rows a `handleMessage` trace attempted to insert. -/
def insertedRows (calls : List DBCall) : List MeasurementRow :=
  calls.filterMap (fun c => match c with | .measurement r => some r | _ => none)

/-- The measurement rows for the valid-typed sensor readings of the given
slave frames, in handling order. -/
def rowsFor (p : Parsed) (gwID : String) (lat lon : Option ℚ) (slaves : List SlaveGo) :
    List MeasurementRow :=
  (slaves.map (fun s =>
    (s.sensors.filter (fun m => m.type ∈ validSensorTypes)).map
      (fun m => mkRow p gwID lat lon s.id m))).flatten

/-- The measurement rows `handleMessage` must attempt for a parsed
message: one per valid-typed sensor reading, with gateway attribution from
the first radio-metadata entry. -/
def rowsOf (p : Parsed) : List MeasurementRow :=
  rowsFor p (gwInfo p.msg).1 (gwInfo p.msg).2.1 (gwInfo p.msg).2.2 p.msg.decodedPayload.slaves

/-- Left-to-right fold of conflict-ignoring measurement inserts. -/
def foldInsert (db : DB) (rows : List MeasurementRow) : DB :=
  rows.foldl insertMeasurement db

/-- The rows the injected failure oracle lets through. -/
def okRows (env : Env) (rows : List MeasurementRow) : List MeasurementRow :=
  rows.filter (fun r => !env.insertFails r)

/-- A row's uniqueness key is already present in the database. -/
def keyPresent (db : DB) (r : MeasurementRow) : Prop :=
  ∃ x ∈ db.measurements, measKey x = measKey r

/-! Concrete fixtures used to instantiate the general theorems. -/

/-- Environment with processing time 0 and no injected insert failures. -/
def envNoFail : Env := ⟨0, fun _ => false⟩

/-- Environment that fails every insert whose sensor index is 1. -/
def envFailIdx1 : Env := ⟨0, fun r => r.sensorIndex == 1⟩

/-- The empty database. -/
def emptyDB : DB := ⟨[], [], []⟩

/-- An uplink document with one slave carrying a valid-typed reading
(type 1) and an unknown-typed reading (type 99). -/
def duMixedTypes : DirectUp :=
  ⟨⟨"", "ab", ""⟩, 3, ⟨⟨[⟨1, [⟨0, 0, 1, 0⟩, ⟨0, 0, 99, 0⟩]⟩]⟩, [], 7⟩⟩

/-- An uplink document with one slave carrying two valid-typed readings at
sensor indices 0 and 1. -/
def duTwo : DirectUp :=
  ⟨⟨"", "ab", ""⟩, 3, ⟨⟨[⟨1, [⟨0, 0, 1, 0⟩, ⟨0, 1, 1, 0⟩]⟩]⟩, [], 7⟩⟩

/-- An uplink document with one slave carrying one valid-typed reading. -/
def duOne : DirectUp :=
  ⟨⟨"", "ab", ""⟩, 3, ⟨⟨[⟨1, [⟨0, 0, 1, 0⟩]⟩]⟩, [], 7⟩⟩

end WeatherBus


namespace WeatherBus

/-! Helper lemmas about the bit manipulations of the wire format. -/

/-- Reading a 16-bit big-endian pair: `(hi << 8) | lo = 256 * hi + lo`. -/
theorem shiftLeft_or_byte (a b : ℕ) (hb : b < 256) : (a <<< 8) ||| b = 256 * a + b := by
  have h2 : (256 : ℕ) = 2 ^ 8 := by norm_num
  rw [Nat.shiftLeft_eq, h2, Nat.mul_comm, ← Nat.mul_add_lt_is_or (by omega) a]

/-- Masking with `0x1F` is reduction modulo 32. -/
theorem and_thirtyone (x : ℕ) : x &&& 31 = x % 32 := by
  apply Nat.eq_of_testBit_eq
  intro i
  rw [show (31 : ℕ) = 2 ^ 5 - 1 from by norm_num, show (32 : ℕ) = 2 ^ 5 from by norm_num,
    Nat.testBit_and, Nat.testBit_two_pow_sub_one, Nat.testBit_mod_two_pow, Bool.and_comm]

/-- Unpacking the format from a packed header byte. -/
theorem header_shift (f i : ℕ) (h : i < 32) : (32 * f + i) >>> 5 = f := by
  rw [Nat.shiftRight_eq_div_pow]
  omega

/-- Unpacking the index from a packed header byte. -/
theorem header_and (f i : ℕ) (h : i < 32) : (32 * f + i) &&& 31 = i := by
  rw [and_thirtyone]
  omega

end WeatherBus

namespace WeatherBus

/-- Parsing the encoding of well-formed sensors followed by anything:
the encoded sensors are consumed and decoded exactly, and parsing
continues in the remainder. -/
theorem parseSensors_encode (es : List SensorEnc) (hwf : ∀ e ∈ es, WFsensor e)
    (m : ℕ) (rest : List ℕ) :
    parseSensors (es.length + m) (encodeSensors es ++ rest) =
      (parseSensors m rest).map
        (fun p => (es.map decodedSensor ++ p.1, (encodeSensors es).length + p.2)) := by
  induction es with
  | nil =>
    simp only [List.length_nil, Nat.zero_add, encodeSensors, List.nil_append, List.map_nil,
      List.length_nil]
    cases h : parseSensors m rest with
    | error e => simp [Except.map]
    | ok p => simp [Except.map]
  | cons e es ih =>
    obtain ⟨hty, hidx, hfmt, hraw⟩ := hwf e (List.mem_cons_self e es)
    have hc : (e :: es).length + m = (es.length + m) + 1 := by
      simp [List.length_cons]
      omega
    rw [hc]
    simp only [encodeSensors, encodeSensor, List.cons_append, List.append_assoc]
    rw [parseSensors]
    simp only [header_shift e.fmt e.idx hidx, hfmt]
    rw [if_pos (by simp [List.length_append])]
    rw [List.take_left' rfl, List.drop_left' rfl]
    rw [ih (fun x hx => hwf x (List.mem_cons_of_mem e hx))]
    cases h : parseSensors m rest with
    | error er => simp [Except.map]
    | ok p =>
      simp only [Except.map, header_and e.fmt e.idx hidx, decodedSensor, List.map_cons,
        List.cons_append, List.length_append, List.length_cons]
      have harith : 2 + e.raw.length + ((encodeSensors es).length + p.2)
          = e.raw.length + (encodeSensors es).length + 1 + 1 + p.2 := by omega
      rw [harith]

end WeatherBus

namespace WeatherBus

/-- Decoding the encoding of well-formed slave blocks followed by anything:
the blocks are consumed and decoded exactly, and the loop continues on the
remainder with the decoded slaves accumulated. -/
theorem decodeLoop_encode (fs : List FrameEnc) (hwf : WFframes fs) (tail : List ℕ)
    (acc : List Slave) :
    decodeLoop (encodeFrames fs ++ tail) acc = decodeLoop tail (acc ++ fs.map decodedFrame) := by
  induction fs generalizing acc with
  | nil => simp [encodeFrames]
  | cons f fs ih =>
    obtain ⟨hid, hcnt, hsens⟩ := hwf f (List.mem_cons_self f fs)
    have hps := parseSensors_encode f.sensors hsens 0 (encodeFrames fs ++ tail)
    simp only [Nat.add_zero, parseSensors, Except.map] at hps
    simp only [encodeFrames, encodeFrame, List.cons_append, List.append_assoc]
    rw [decodeLoop, hps]
    dsimp only
    rw [List.drop_left' rfl]
    have hsid : ((f.id / 256) <<< 8) ||| (f.id % 256) = f.id := by
      rw [shiftLeft_or_byte _ _ (Nat.mod_lt _ (by norm_num))]
      omega
    rw [hsid]
    rw [ih (fun x hx => hwf x (List.mem_cons_of_mem f hx))]
    simp [decodedFrame]

end WeatherBus

namespace WeatherBus

/-- The loop exits on fewer than 3 remaining bytes; leftovers warn. -/
theorem decodeLoop_short (rest : List ℕ) (acc : List Slave) (h : rest.length < 3) :
    decodeLoop rest acc =
      ⟨acc, if rest.isEmpty then [] else ["Extra bytes at end of payload"], []⟩ := by
  rcases rest with _ | ⟨x, _ | ⟨y, _ | ⟨z, r⟩⟩⟩
  · rw [decodeLoop]
    intro a b c r h
    simp at h
  · rw [decodeLoop]
    intro a b c r h
    simp at h
  · rw [decodeLoop]
    intro a b c r h
    simp at h
  · simp only [List.length_cons] at h
    omega

/-- C1: for every well-formed payload, the decoder parses each slave block
as a 16-bit big-endian slave id (the encoder emits `id / 256` then
`id % 256`), a sensor count byte, and per sensor a type byte plus a packed
header byte whose top 3 bits are the format and low 5 bits the index
(`decodedSensor` restores exactly those fields), with every sensor value
decoded from its raw bytes by the little-endian per-format rule
`decodeValue` — despite the big-endian id. -/
theorem decodeUplink_parses_wire_format (fs : List FrameEnc) (hwf : WFframes fs) :
    decodeUplink (encodeFrames fs) = ⟨fs.map decodedFrame, [], []⟩ := by
  rw [decodeUplink, show encodeFrames fs = encodeFrames fs ++ [] from (List.append_nil _).symm,
    decodeLoop_encode fs hwf [] [], decodeLoop_short [] _ (by simp)]
  rfl

/-- Witness for `decodeUplink_parses_wire_format` at a concrete payload:
two slaves, one with a uint8 and a fixed-point sensor, one with a uint16
sensor. -/
theorem decodeUplink_parses_wire_format_witness :
    decodeUplink (encodeFrames
        [⟨258, [⟨1, 0, 3, [17]⟩, ⟨2, 4, 7, [56, 255]⟩]⟩, ⟨9, [⟨3, 1, 2, [25, 1]⟩]⟩]) =
      ⟨[⟨258, [⟨1, 3, 0, .num 17⟩, ⟨2, 7, 4, .num (-2)⟩]⟩, ⟨9, [⟨3, 2, 1, .num 281⟩]⟩], [], []⟩ := by
  rw [decodeUplink_parses_wire_format _ (by decide)]
  simp only [List.map_cons, List.map_nil, decodedFrame, decodedSensor]
  norm_num [decodeValue, leNat, int16OfNat]

/-- C7: a payload of complete well-formed slave blocks followed by a 1- or
2-byte remainder decodes to all the slaves, an empty error list, and the
extra-bytes warning (non-fatal). -/
theorem decodeUplink_extra_bytes (fs : List FrameEnc) (hwf : WFframes fs)
    (extra : List ℕ) (hlen : extra.length = 1 ∨ extra.length = 2) :
    decodeUplink (encodeFrames fs ++ extra) =
      ⟨fs.map decodedFrame, ["Extra bytes at end of payload"], []⟩ := by
  rw [decodeUplink, decodeLoop_encode fs hwf extra [],
    decodeLoop_short extra _ (by omega)]
  rcases extra with _ | ⟨x, r⟩
  · simp at hlen
  · rfl

/-- Witness for `decodeUplink_extra_bytes`: one slave block followed by a
single trailing byte. -/
theorem decodeUplink_extra_bytes_witness :
    decodeUplink (encodeFrames [⟨7, [⟨1, 1, 0, [5, 0]⟩]⟩] ++ [255]) =
      ⟨[⟨7, [⟨1, 0, 1, .num 5⟩]⟩], ["Extra bytes at end of payload"], []⟩ := by
  rw [decodeUplink_extra_bytes _ (by decide) _ (by decide)]
  simp only [List.map_cons, List.map_nil, decodedFrame, decodedSensor]
  norm_num [decodeValue, leNat]

end WeatherBus

namespace WeatherBus

/-- C2: after any number of complete well-formed slave blocks and any
well-formed sensors already parsed inside the current block, (a) fewer than
2 bytes left for a sensor header appends exactly "Truncated sensor header",
(b) a header whose format code is not in `FORMAT_LEN` appends exactly
"Unknown format <n>", and (c) fewer value bytes than the format's width
appends exactly "Truncated sensor value"; in each case decoding terminates
immediately with that single error, no warning, and the slaves decoded from
the complete blocks before the failing one. -/
theorem decodeUplink_error_cases (fs : List FrameEnc) (hwf : WFframes fs)
    (hi lo k : ℕ) (good : List SensorEnc) (hgood : ∀ e ∈ good, WFsensor e) :
    (∀ bad : List ℕ, bad.length ≤ 1 →
        decodeUplink (encodeFrames fs ++
            hi :: lo :: (good.length + (k + 1)) :: (encodeSensors good ++ bad)) =
          ⟨fs.map decodedFrame, [], ["Truncated sensor header"]⟩) ∧
    (∀ (ty hdr : ℕ) (rest2 : List ℕ), FORMAT_LEN (hdr >>> 5) = none →
        decodeUplink (encodeFrames fs ++
            hi :: lo :: (good.length + (k + 1)) :: (encodeSensors good ++ ty :: hdr :: rest2)) =
          ⟨fs.map decodedFrame, [], ["Unknown format " ++ toString (hdr >>> 5)]⟩) ∧
    (∀ (ty hdr len : ℕ) (rest2 : List ℕ), FORMAT_LEN (hdr >>> 5) = some len →
        rest2.length < len →
        decodeUplink (encodeFrames fs ++
            hi :: lo :: (good.length + (k + 1)) :: (encodeSensors good ++ ty :: hdr :: rest2)) =
          ⟨fs.map decodedFrame, [], ["Truncated sensor value"]⟩) := by
  have key : ∀ (X : List ℕ) (msg : String),
      parseSensors (k + 1) X = .error msg →
      decodeUplink (encodeFrames fs ++
          hi :: lo :: (good.length + (k + 1)) :: (encodeSensors good ++ X)) =
        ⟨fs.map decodedFrame, [], [msg]⟩ := by
    intro X msg hX
    rw [decodeUplink, decodeLoop_encode fs hwf _ [], decodeLoop,
      parseSensors_encode good hgood (k + 1) X, hX]
    rfl
  refine ⟨fun bad hlen => ?_, fun ty hdr rest2 hfmt => ?_, fun ty hdr len rest2 hfmt hshort => ?_⟩
  · apply key
    rcases bad with _ | ⟨x, _ | ⟨y, r⟩⟩
    · rfl
    · rfl
    · simp only [List.length_cons] at hlen
      omega
  · apply key
    rw [parseSensors]
    simp only [hfmt]
  · apply key
    rw [parseSensors]
    simp only [hfmt]
    rw [if_neg (by omega)]

end WeatherBus

namespace WeatherBus

/-- Witness for `decodeUplink_error_cases`: a complete zero-sensor slave
block followed by a failing block, for each of the three error shapes. -/
theorem decodeUplink_error_cases_witness :
    decodeUplink [0, 5, 0, 0, 9, 1] =
      ⟨[⟨5, []⟩], [], ["Truncated sensor header"]⟩ ∧
    decodeUplink [0, 5, 0, 0, 9, 1, 7, 255] =
      ⟨[⟨5, []⟩], [], ["Unknown format 7"]⟩ ∧
    decodeUplink [0, 5, 0, 0, 9, 1, 1, 32, 25] =
      ⟨[⟨5, []⟩], [], ["Truncated sensor value"]⟩ := by
  have h := decodeUplink_error_cases [⟨5, []⟩] (by decide) 0 9 0 [] (by decide)
  refine ⟨?_, ?_, ?_⟩
  · have h1 := h.1 [] (by decide)
    simpa [encodeFrames, encodeFrame, encodeSensors, decodedFrame] using h1
  · have h2 := h.2.1 7 255 [] (by decide)
    simpa [encodeFrames, encodeFrame, encodeSensors, decodedFrame,
      show (255 : ℕ) >>> 5 = 7 from by decide] using h2
  · have h3 := h.2.2 1 32 2 [25] (by decide) (by decide)
    simpa [encodeFrames, encodeFrame, encodeSensors, decodedFrame] using h3

/-- C9 counterexample: decoding the spec's worked-example byte sequence
`[0x00,0x01, 0x01, 0x01,0x20, 0x19]` does NOT yield a slave: only one of
the two value bytes required by format 1 is present, so the decoder stops
with "Truncated sensor value" and returns no slaves. -/
theorem spec_example_vector_truncates :
    decodeUplink [0x00, 0x01, 0x01, 0x01, 0x20, 0x19] =
      ⟨[], [], ["Truncated sensor value"]⟩ := by
  have h : parseSensors 1 [1, 32, 25] = .error "Truncated sensor value" := rfl
  rw [decodeUplink, decodeLoop, h]

/-- C9 amended: with the second value byte supplied
(`[0x00,0x01, 0x01, 0x01,0x20, 0x19,0x00]`), decoding yields one slave
with id 1 containing one sensor with type 1, format 1, index 0, whose
value 25 is the little-endian uint16 of the 2 raw bytes. -/
theorem spec_example_vector_amended :
    decodeUplink [0x00, 0x01, 0x01, 0x01, 0x20, 0x19, 0x00] =
      ⟨[⟨1, [⟨1, 0, 1, .num 25⟩]⟩], [], []⟩ := by
  have h : parseSensors 1 [1, 32, 25, 0] = .ok ([⟨1, 0, 1, .num 25⟩], 4) := by
    rw [parseSensors]
    norm_num [FORMAT_LEN, decodeValue, leNat, parseSensors]
    decide
  rw [decodeUplink, decodeLoop, h]
  have hdrop : List.drop 4 [1, 32, 25, 0] = ([] : List ℕ) := rfl
  have hsid : ((0 : ℕ) <<< 8) ||| 1 = 1 := by decide
  dsimp only
  rw [hdrop, hsid, decodeLoop_short [] _ (by simp)]
  rfl

end WeatherBus

namespace WeatherBus

/-- Pairwise little-endian assembly. -/
theorem leNat_pair (a b : ℕ) : leNat [a, b] = a + 256 * b := by
  simp [leNat]

/-- `getInt16` round-trip: reading back the two's-complement 16-bit
pattern of `N` restores `N`. -/
theorem int16OfNat_roundtrip (N : ℤ) (h1 : -32768 ≤ N) (h2 : N < 32768) :
    int16OfNat ((N % 65536).toNat) = N := by
  unfold int16OfNat
  split <;> omega

/-- Decoding a payload that is a single slave block (id 0) holding a single
sensor with the given type byte, header byte, and value bytes. -/
theorem decodeUplink_single (ty hdr : ℕ) (raw : List ℕ) (len : ℕ)
    (hfmt : FORMAT_LEN (hdr >>> 5) = some len) (hlen : raw.length = len) :
    decodeUplink (0 :: 0 :: 1 :: ty :: hdr :: raw) =
      ⟨[⟨0, [⟨ty, hdr &&& 31, hdr >>> 5, decodeValue (hdr >>> 5) raw⟩]⟩], [], []⟩ := by
  have h : parseSensors 1 (ty :: hdr :: raw) =
      .ok ([⟨ty, hdr &&& 31, hdr >>> 5, decodeValue (hdr >>> 5) raw⟩], 2 + len + 0) := by
    rw [parseSensors]
    simp only [hfmt]
    rw [if_pos (by omega)]
    rw [show raw.take len = raw from by rw [← hlen]; exact List.take_length raw,
      show raw.drop len = [] from by rw [← hlen]; exact List.drop_length raw]
    rfl
  rw [decodeUplink, decodeLoop, h]
  dsimp only
  rw [show (ty :: hdr :: raw).drop (2 + len + 0) = [] from by
      rw [show 2 + len + 0 = len + 1 + 1 from by omega, List.drop_succ_cons,
        List.drop_succ_cons, ← hlen, List.drop_length],
    show ((0 : ℕ) <<< 8) ||| 0 = 0 from by decide,
    decodeLoop_short [] _ (by simp)]
  rfl

end WeatherBus

namespace WeatherBus

/-- C5: the decoder's value decoding matches the format-table rules on
whole payloads.  Code 0 yields the unsigned 8-bit value; code 1 the
unsigned 16-bit little-endian value; code 2 the IEEE float32 of the
little-endian 32-bit pattern; code 3 the IEEE float64 of the little-endian
64-bit pattern; and, as round-trips over every 16-bit value, code 4
decodes the signed little-endian encoding of `N` to `N / 100` and code 5
decodes the unsigned little-endian encoding of `M` to `M / 10`. -/
theorem decodeUplink_format_rules :
    (∀ b0 : ℕ, b0 < 256 →
        decodeUplink [0, 0, 1, 1, 0, b0] =
          ⟨[⟨0, [⟨1, 0, 0, .num b0⟩]⟩], [], []⟩) ∧
    (∀ b0 b1 : ℕ, b0 < 256 → b1 < 256 →
        decodeUplink [0, 0, 1, 1, 32, b0, b1] =
          ⟨[⟨0, [⟨1, 0, 1, .num (b0 + 256 * b1)⟩]⟩], [], []⟩) ∧
    (∀ b0 b1 b2 b3 : ℕ, b0 < 256 → b1 < 256 → b2 < 256 → b3 < 256 →
        decodeUplink [0, 0, 1, 1, 64, b0, b1, b2, b3] =
          ⟨[⟨0, [⟨1, 0, 2,
            decodeFloatBits 8 23 (b0 + 256 * b1 + 256 ^ 2 * b2 + 256 ^ 3 * b3)⟩]⟩], [], []⟩) ∧
    (∀ b0 b1 b2 b3 b4 b5 b6 b7 : ℕ, b0 < 256 → b1 < 256 → b2 < 256 → b3 < 256 →
        b4 < 256 → b5 < 256 → b6 < 256 → b7 < 256 →
        decodeUplink [0, 0, 1, 1, 96, b0, b1, b2, b3, b4, b5, b6, b7] =
          ⟨[⟨0, [⟨1, 0, 3,
            decodeFloatBits 11 52 (b0 + 256 * b1 + 256 ^ 2 * b2 + 256 ^ 3 * b3 +
              256 ^ 4 * b4 + 256 ^ 5 * b5 + 256 ^ 6 * b6 + 256 ^ 7 * b7)⟩]⟩], [], []⟩) ∧
    (∀ N : ℤ, -32768 ≤ N → N < 32768 →
        decodeUplink [0, 0, 1, 1, 128, (N % 65536).toNat % 256, (N % 65536).toNat / 256] =
          ⟨[⟨0, [⟨1, 0, 4, .num ((N : ℚ) / 100)⟩]⟩], [], []⟩) ∧
    (∀ M : ℕ, M < 65536 →
        decodeUplink [0, 0, 1, 1, 160, M % 256, M / 256] =
          ⟨[⟨0, [⟨1, 0, 5, .num ((M : ℚ) / 10)⟩]⟩], [], []⟩) := by
  refine ⟨fun b0 h0 => ?_, fun b0 b1 h0 h1 => ?_, fun b0 b1 b2 b3 h0 h1 h2 h3 => ?_,
    fun b0 b1 b2 b3 b4 b5 b6 b7 h0 h1 h2 h3 h4 h5 h6 h7 => ?_,
    fun N hN1 hN2 => ?_, fun M hM => ?_⟩
  · rw [decodeUplink_single 1 0 [b0] 1 (by decide) (by simp)]
    norm_num [decodeValue]
  · rw [decodeUplink_single 1 32 [b0, b1] 2 (by decide) (by simp),
      show (32 : ℕ) &&& 31 = 0 from by decide, show (32 : ℕ) >>> 5 = 1 from by decide]
    norm_num [decodeValue, leNat]
  · rw [decodeUplink_single 1 64 [b0, b1, b2, b3] 4 (by decide) (by simp),
      show (64 : ℕ) &&& 31 = 0 from by decide, show (64 : ℕ) >>> 5 = 2 from by decide]
    norm_num [decodeValue, leNat]
    ring_nf
  · rw [decodeUplink_single 1 96 [b0, b1, b2, b3, b4, b5, b6, b7] 8 (by decide) (by simp),
      show (96 : ℕ) &&& 31 = 0 from by decide, show (96 : ℕ) >>> 5 = 3 from by decide]
    norm_num [decodeValue, leNat]
    ring_nf
  · rw [decodeUplink_single 1 128 [(N % 65536).toNat % 256, (N % 65536).toNat / 256] 2
        (by decide) (by simp),
      show (128 : ℕ) &&& 31 = 0 from by decide, show (128 : ℕ) >>> 5 = 4 from by decide]
    rw [show decodeValue 4 [(N % 65536).toNat % 256, (N % 65536).toNat / 256]
        = .num ((int16OfNat (leNat [(N % 65536).toNat % 256, (N % 65536).toNat / 256]) : ℚ) / 100)
        from rfl]
    rw [leNat_pair, show (N % 65536).toNat % 256 + 256 * ((N % 65536).toNat / 256)
        = (N % 65536).toNat from by omega,
      int16OfNat_roundtrip N hN1 hN2]
  · rw [decodeUplink_single 1 160 [M % 256, M / 256] 2 (by decide) (by simp),
      show (160 : ℕ) &&& 31 = 0 from by decide, show (160 : ℕ) >>> 5 = 5 from by decide]
    rw [show decodeValue 5 [M % 256, M / 256]
        = .num ((leNat [M % 256, M / 256] : ℚ) / 10) from rfl]
    rw [leNat_pair, show M % 256 + 256 * (M / 256) = M from by omega]

/-- Witness for `decodeUplink_format_rules`, at concrete bytes for each
format: 17 (u8), 0x0119 = 281 (u16le), 1.0f (32-bit LE pattern
0x3F800000), 1.0 (64-bit LE pattern 0x3FF0000000000000), N = -200 → -2
(signed fixed-point), M = 75 → 7.5 (unsigned fixed-point). -/
theorem decodeUplink_format_rules_witness :
    decodeUplink [0, 0, 1, 1, 0, 17] = ⟨[⟨0, [⟨1, 0, 0, .num 17⟩]⟩], [], []⟩ ∧
    decodeUplink [0, 0, 1, 1, 32, 25, 1] = ⟨[⟨0, [⟨1, 0, 1, .num 281⟩]⟩], [], []⟩ ∧
    decodeUplink [0, 0, 1, 1, 64, 0, 0, 128, 63] = ⟨[⟨0, [⟨1, 0, 2, .num 1⟩]⟩], [], []⟩ ∧
    decodeUplink [0, 0, 1, 1, 96, 0, 0, 0, 0, 0, 0, 240, 63] =
      ⟨[⟨0, [⟨1, 0, 3, .num 1⟩]⟩], [], []⟩ ∧
    decodeUplink [0, 0, 1, 1, 128, 56, 255] = ⟨[⟨0, [⟨1, 0, 4, .num (-2)⟩]⟩], [], []⟩ ∧
    decodeUplink [0, 0, 1, 1, 160, 75, 0] = ⟨[⟨0, [⟨1, 0, 5, .num (15 / 2)⟩]⟩], [], []⟩ := by
  obtain ⟨r0, r1, r2, r3, r4, r5⟩ := decodeUplink_format_rules
  refine ⟨?_, ?_, ?_, ?_, ?_, ?_⟩
  · have := r0 17 (by decide)
    simpa using this
  · have := r1 25 1 (by decide) (by decide)
    norm_num at this
    exact this
  · have := r2 0 0 128 63 (by decide) (by decide) (by decide) (by decide)
    rw [show decodeFloatBits 8 23 (0 + 256 * 0 + 256 ^ 2 * 128 + 256 ^ 3 * 63)
        = JsNum.num 1 from by simp [decodeFloatBits]; norm_num] at this
    exact this
  · have := r3 0 0 0 0 0 0 240 63 (by decide) (by decide) (by decide) (by decide)
      (by decide) (by decide) (by decide) (by decide)
    rw [show decodeFloatBits 11 52 (0 + 256 * 0 + 256 ^ 2 * 0 + 256 ^ 3 * 0 + 256 ^ 4 * 0 +
          256 ^ 5 * 0 + 256 ^ 6 * 240 + 256 ^ 7 * 63)
        = JsNum.num 1 from by simp [decodeFloatBits]; norm_num] at this
    exact this
  · have := r4 (-200) (by norm_num) (by norm_num)
    norm_num at this
    exact this
  · have := r5 75 (by norm_num)
    norm_num at this
    exact this

end WeatherBus

namespace WeatherBus

/-- Characterization of the inner sensor loop: unknown-typed readings are
skipped without a call; valid-typed readings each produce exactly one
insert call; rows passing the failure oracle are folded into the database
and counted. -/
theorem insertSensors_eq (env : Env) (p : Parsed) (gwID : String) (lat lon : Option ℚ)
    (sid : ℤ) (ms : List SensorGo) (db : DB) :
    insertSensors env p gwID lat lon sid ms db =
      (foldInsert db (okRows env ((ms.filter (fun m => m.type ∈ validSensorTypes)).map
          (mkRow p gwID lat lon sid))),
       ((ms.filter (fun m => m.type ∈ validSensorTypes)).map
          (mkRow p gwID lat lon sid)).map DBCall.measurement,
       (okRows env ((ms.filter (fun m => m.type ∈ validSensorTypes)).map
          (mkRow p gwID lat lon sid))).length) := by
  induction ms generalizing db with
  | nil => simp [insertSensors, foldInsert, okRows]
  | cons m ms ih =>
    by_cases hv : m.type ∈ validSensorTypes
    · by_cases hf : env.insertFails (mkRow p gwID lat lon sid m)
      · simp [insertSensors, hv, hf, ih, okRows, foldInsert]
      · simp [insertSensors, hv, hf, ih, okRows, foldInsert]
    · simp [insertSensors, hv, ih]

/-- Characterization of the outer slave loop in terms of `rowsFor`. -/
theorem insertSlaves_eq (env : Env) (p : Parsed) (gwID : String) (lat lon : Option ℚ)
    (slaves : List SlaveGo) (db : DB) :
    insertSlaves env p gwID lat lon slaves db =
      (foldInsert db (okRows env (rowsFor p gwID lat lon slaves)),
       (rowsFor p gwID lat lon slaves).map DBCall.measurement,
       (okRows env (rowsFor p gwID lat lon slaves)).length) := by
  induction slaves generalizing db with
  | nil => simp [insertSlaves, rowsFor, foldInsert, okRows]
  | cons s ss ih =>
    simp only [insertSlaves, insertSensors_eq, ih]
    simp [rowsFor, okRows, foldInsert, List.filter_append, List.foldl_append]

end WeatherBus

namespace WeatherBus

/-- Characterization of a successfully parsed `handleMessage` run: some
dimension-upsert prefix (which issues no measurement inserts and leaves the
measurement table untouched) followed by exactly one insert attempt per
valid-typed reading, a fold of the non-failing rows into the database, and
the final log line with the success count and the station EUI. -/
theorem handleMessage_ok_eq (env : Env) (u : Option DirectUp) (db : DB) (p : Parsed)
    (hp : parseUplink u env.now = Except.ok p) :
    ∃ pre : DB × List DBCall,
      handleMessage env u db =
        ⟨foldInsert pre.1 (okRows env (rowsOf p)),
         pre.2 ++ (rowsOf p).map DBCall.measurement,
         some ⟨(okRows env (rowsOf p)).length, p.stationEUI⟩⟩ ∧
      pre.1.measurements = db.measurements ∧
      insertedRows pre.2 = [] := by
  unfold handleMessage
  rw [hp]
  by_cases h1 : p.appID ≠ "" ∧ p.stationEUI ≠ ""
  all_goals rcases hmeta : p.msg.rxMetadata with _ | ⟨rm, rest⟩
  · exact ⟨(upsertStation db p.stationEUI p.appID (nullIfEmpty p.stationDevID),
      [DBCall.station p.stationEUI p.appID (nullIfEmpty p.stationDevID)]),
      by simp [h1, hmeta, insertSlaves_eq, rowsOf, gwInfo], rfl, rfl⟩
  · by_cases h2 : rm.gatewayID ≠ ""
    all_goals rcases hloc : rm.location with _ | ⟨la, lo⟩
    · exact ⟨(upsertGateway (upsertStation db p.stationEUI p.appID (nullIfEmpty p.stationDevID))
          rm.gatewayID rm.gatewayEUI,
        [DBCall.station p.stationEUI p.appID (nullIfEmpty p.stationDevID),
         DBCall.gateway rm.gatewayID rm.gatewayEUI]),
        by simp [h1, h2, hmeta, hloc, insertSlaves_eq, rowsOf, gwInfo], rfl, rfl⟩
    · exact ⟨(upsertGateway (upsertStation db p.stationEUI p.appID (nullIfEmpty p.stationDevID))
          rm.gatewayID rm.gatewayEUI,
        [DBCall.station p.stationEUI p.appID (nullIfEmpty p.stationDevID),
         DBCall.gateway rm.gatewayID rm.gatewayEUI]),
        by simp [h1, h2, hmeta, hloc, insertSlaves_eq, rowsOf, gwInfo], rfl, rfl⟩
    · exact ⟨(upsertStation db p.stationEUI p.appID (nullIfEmpty p.stationDevID),
        [DBCall.station p.stationEUI p.appID (nullIfEmpty p.stationDevID)]),
        by simp [h1, h2, hmeta, hloc, insertSlaves_eq, rowsOf, gwInfo], rfl, rfl⟩
    · exact ⟨(upsertStation db p.stationEUI p.appID (nullIfEmpty p.stationDevID),
        [DBCall.station p.stationEUI p.appID (nullIfEmpty p.stationDevID)]),
        by simp [h1, h2, hmeta, hloc, insertSlaves_eq, rowsOf, gwInfo], rfl, rfl⟩
  · exact ⟨(db, []),
      by simp [h1, hmeta, insertSlaves_eq, rowsOf, gwInfo], rfl, rfl⟩
  · by_cases h2 : rm.gatewayID ≠ ""
    all_goals rcases hloc : rm.location with _ | ⟨la, lo⟩
    · exact ⟨(upsertGateway db rm.gatewayID rm.gatewayEUI,
        [DBCall.gateway rm.gatewayID rm.gatewayEUI]),
        by simp [h1, h2, hmeta, hloc, insertSlaves_eq, rowsOf, gwInfo], rfl, rfl⟩
    · exact ⟨(upsertGateway db rm.gatewayID rm.gatewayEUI,
        [DBCall.gateway rm.gatewayID rm.gatewayEUI]),
        by simp [h1, h2, hmeta, hloc, insertSlaves_eq, rowsOf, gwInfo], rfl, rfl⟩
    · exact ⟨(db, []),
        by simp [h1, h2, hmeta, hloc, insertSlaves_eq, rowsOf, gwInfo], rfl, rfl⟩
    · exact ⟨(db, []),
        by simp [h1, h2, hmeta, hloc, insertSlaves_eq, rowsOf, gwInfo], rfl, rfl⟩

end WeatherBus

namespace WeatherBus

/-- With no injected failures every attempted row goes through. -/
theorem okRows_nofail (env : Env) (rows : List MeasurementRow)
    (h : ∀ r, env.insertFails r = false) : okRows env rows = rows := by
  simp [okRows, h]

/-- The conflict check of `insertMeasurement` decides `keyPresent`. -/
theorem any_key_iff (db : DB) (r : MeasurementRow) :
    (db.measurements.any (fun x => measKey x = measKey r)) = true ↔ keyPresent db r := by
  simp [keyPresent, List.any_eq_true]

/-- Inserting never removes a key. -/
theorem keyPresent_insert_mono (db : DB) (r x : MeasurementRow)
    (h : keyPresent db x) : keyPresent (insertMeasurement db r) x := by
  unfold insertMeasurement
  split
  · exact h
  · obtain ⟨y, hy, hk⟩ := h
    exact ⟨y, by simp [hy], hk⟩

/-- After inserting a row its key is present (either it conflicted with an
existing key or it was appended). -/
theorem keyPresent_insert_self (db : DB) (r : MeasurementRow) :
    keyPresent (insertMeasurement db r) r := by
  unfold insertMeasurement
  split
  case isTrue h => exact (any_key_iff db r).mp h
  case isFalse h => exact ⟨r, by simp, rfl⟩

/-- A fold of inserts never removes a key. -/
theorem foldInsert_keyPresent_mono (rows : List MeasurementRow) (db : DB)
    (x : MeasurementRow) (h : keyPresent db x) : keyPresent (foldInsert db rows) x := by
  induction rows generalizing db with
  | nil => exact h
  | cons r rows ih => exact ih _ (keyPresent_insert_mono db r x h)

/-- After a fold of inserts, every folded row's key is present. -/
theorem foldInsert_keyPresent (rows : List MeasurementRow) (db : DB) :
    ∀ r ∈ rows, keyPresent (foldInsert db rows) r := by
  induction rows generalizing db with
  | nil => simp
  | cons r rows ih =>
    intro x hx
    rcases List.mem_cons.mp hx with h | h
    · subst h
      exact foldInsert_keyPresent_mono rows _ x (keyPresent_insert_self db x)
    · exact ih _ x h

/-- Folding rows whose keys are all already present is a no-op: every
insert takes the `ON CONFLICT DO NOTHING` path. -/
theorem foldInsert_id (rows : List MeasurementRow) (db : DB)
    (h : ∀ r ∈ rows, keyPresent db r) : foldInsert db rows = db := by
  induction rows generalizing db with
  | nil => rfl
  | cons r rows ih =>
    have hr : insertMeasurement db r = db := by
      unfold insertMeasurement
      rw [if_pos ((any_key_iff db r).mpr (h r (by simp)))]
    show foldInsert (insertMeasurement db r) rows = db
    rw [hr]
    exact ih db (fun x hx => h x (by simp [hx]))

/-- `keyPresent` only reads the measurement table. -/
theorem keyPresent_congr (db db' : DB) (r : MeasurementRow)
    (h : db.measurements = db'.measurements) : keyPresent db r ↔ keyPresent db' r := by
  simp [keyPresent, h]

/-- New measurement rows only come from the folded rows. -/
theorem foldInsert_measurements_subset (rows : List MeasurementRow) (db : DB)
    (x : MeasurementRow) (hx : x ∈ (foldInsert db rows).measurements) :
    x ∈ db.measurements ∨ x ∈ rows := by
  induction rows generalizing db with
  | nil => exact Or.inl hx
  | cons r rows ih =>
    rcases ih (insertMeasurement db r) hx with h | h
    · unfold insertMeasurement at h
      split at h
      · exact Or.inl h
      · rcases List.mem_append.mp h with h' | h'
        · exact Or.inl h'
        · simp at h'
          exact Or.inr (by simp [h'])
    · exact Or.inr (by simp [h])

end WeatherBus

namespace WeatherBus

/-- C3: the envelope normalizer accepts exactly the unmarshalled documents
carrying a non-empty `end_device_ids.dev_eui`; every other message — an
unmarshal failure or a parsed document with an empty dev_eui — is rejected
with the unknown-shape error, and a rejected message produces no database
call and leaves the database unchanged. -/
theorem parseUplink_closed_recognizer :
    (∀ (u : Option DirectUp) (now : ℕ),
        (∃ p, parseUplink u now = Except.ok p) ↔
          ∃ du, u = some du ∧ du.endDeviceIDs.devEUI ≠ "") ∧
    (∀ (u : Option DirectUp) (now : ℕ),
        (∀ du, u = some du → du.endDeviceIDs.devEUI = "") →
        parseUplink u now = Except.error "unknown TTN uplink shape (expecting direct /up)") ∧
    (∀ (env : Env) (u : Option DirectUp) (db : DB),
        (∀ du, u = some du → du.endDeviceIDs.devEUI = "") →
        handleMessage env u db = ⟨db, [], none⟩) := by
  refine ⟨fun u now => ?_, fun u now h => ?_, fun env u db h => ?_⟩
  · cases u with
    | none => simp [parseUplink]
    | some du =>
      by_cases h : du.endDeviceIDs.devEUI = ""
      · simp [parseUplink, h]
      · simp [parseUplink, h]
  · cases u with
    | none => simp [parseUplink]
    | some du => simp [parseUplink, h du rfl]
  · cases u with
    | none => simp [handleMessage, parseUplink]
    | some du => simp [handleMessage, parseUplink, h du rfl]

/-- Witness for `parseUplink_closed_recognizer`: a parsed document with an
empty dev_eui is rejected and produces no calls. -/
theorem parseUplink_closed_recognizer_witness :
    handleMessage ⟨0, fun _ => false⟩
        (some ⟨⟨"dev-1", "", "app"⟩, 5, ⟨⟨[]⟩, [], 7⟩⟩) ⟨[], [], []⟩ =
      ⟨⟨[], [], []⟩, [], none⟩ :=
  parseUplink_closed_recognizer.2.2 ⟨0, fun _ => false⟩
    (some ⟨⟨"dev-1", "", "app"⟩, 5, ⟨⟨[]⟩, [], 7⟩⟩) ⟨[], [], []⟩
    (fun du h => by injection h with h2; rw [← h2])

/-- C6: for every accepted envelope the canonical timestamp is the
uplink-message-level received time if non-zero, else the envelope-level
received time if non-zero, else the processing time `now`; and the station
EUI is the dev_eui upper-cased. -/
theorem parseUplink_time_and_eui (du : DirectUp) (now : ℕ)
    (h : du.endDeviceIDs.devEUI ≠ "") :
    ∃ p, parseUplink (some du) now = Except.ok p ∧
      p.stationEUI = du.endDeviceIDs.devEUI.toUpper ∧
      (du.uplinkMessage.receivedAt ≠ 0 → p.when = du.uplinkMessage.receivedAt) ∧
      (du.uplinkMessage.receivedAt = 0 → du.receivedAt ≠ 0 → p.when = du.receivedAt) ∧
      (du.uplinkMessage.receivedAt = 0 → du.receivedAt = 0 → p.when = now) := by
  unfold parseUplink
  dsimp only
  rw [if_pos h]
  refine ⟨_, rfl, rfl, ?_, ?_, ?_⟩
  · intro h1
    simp [h1]
  · intro h1 h2
    simp [h1, h2]
  · intro h1 h2
    simp [h1, h2]

/-- Witness for `parseUplink_time_and_eui`: both received times are zero,
so the processing time 42 wins, and "ab1" is canonicalized to "AB1". -/
theorem parseUplink_time_and_eui_witness :
    ∃ p, parseUplink (some ⟨⟨"d", "ab1", "app"⟩, 0, ⟨⟨[]⟩, [], 0⟩⟩) 42 = Except.ok p ∧
      p.stationEUI = "AB1" ∧ p.when = 42 := by
  obtain ⟨p, hok, heui, _, _, h3⟩ :=
    parseUplink_time_and_eui ⟨⟨"d", "ab1", "app"⟩, 0, ⟨⟨[]⟩, [], 0⟩⟩ 42 (by decide)
  refine ⟨p, hok, ?_, h3 rfl rfl⟩
  rw [heui]
  simp [String.toUpper, String.map_eq]

end WeatherBus

namespace WeatherBus

/-- C4: with parsing successful and no injected write failures, the insert
attempts are exactly one per valid-typed reading in order (readings with a
type outside `validSensorTypes` produce no attempt and no row), every new
row in the database comes from a valid-typed reading, every valid-typed
reading's key is persisted, and the run completes with a summary — an
unknown sensor type never aborts the batch. -/
theorem handleMessage_unknown_type_isolation (env : Env) (u : Option DirectUp) (db : DB)
    (p : Parsed) (hp : parseUplink u env.now = Except.ok p)
    (hnf : ∀ r, env.insertFails r = false) :
    insertedRows (handleMessage env u db).calls = rowsOf p ∧
    (∀ r ∈ rowsOf p, r.sensorType ∈ validSensorTypes) ∧
    (∀ x ∈ (handleMessage env u db).db.measurements, x ∈ db.measurements ∨ x ∈ rowsOf p) ∧
    (∀ r ∈ rowsOf p, keyPresent (handleMessage env u db).db r) ∧
    (handleMessage env u db).summary = some ⟨(rowsOf p).length, p.stationEUI⟩ := by
  obtain ⟨pre, heq, hmeas, hins⟩ := handleMessage_ok_eq env u db p hp
  rw [okRows_nofail env _ hnf] at heq
  refine ⟨?_, ?_, ?_, ?_, ?_⟩
  · rw [heq]
    show insertedRows _ = _
    unfold insertedRows at hins ⊢
    rw [List.filterMap_append, hins, List.nil_append, List.filterMap_map]
    generalize rowsOf p = rows
    induction rows with
    | nil => rfl
    | cons r rows ih => simp [List.filterMap_cons, Function.comp, ih]
  · intro r hr
    simp only [rowsOf, rowsFor, List.mem_flatten, List.mem_map] at hr
    obtain ⟨l, ⟨s, hs, hl⟩, hm⟩ := hr
    subst hl
    obtain ⟨m, hm2, hmk⟩ := List.mem_map.mp hm
    obtain ⟨hmem, hval⟩ := List.mem_filter.mp hm2
    subst hmk
    simpa [mkRow] using of_decide_eq_true hval
  · intro x hx
    rw [heq] at hx
    rcases foldInsert_measurements_subset _ _ _ hx with h | h
    · rw [hmeas] at h
      exact Or.inl h
    · exact Or.inr h
  · intro r hr
    rw [heq]
    exact foldInsert_keyPresent _ _ r hr
  · rw [heq]

end WeatherBus

namespace WeatherBus

/-- Witness for `handleMessage_unknown_type_isolation` at a document with
one valid-typed and one unknown-typed reading. -/
theorem handleMessage_unknown_type_isolation_witness :
    insertedRows (handleMessage envNoFail (some duMixedTypes) emptyDB).calls =
      rowsOf ⟨7, "ab".toUpper, "", "", duMixedTypes.uplinkMessage⟩ ∧
    (∀ r ∈ rowsOf ⟨7, "ab".toUpper, "", "", duMixedTypes.uplinkMessage⟩,
      r.sensorType ∈ validSensorTypes) ∧
    (∀ x ∈ (handleMessage envNoFail (some duMixedTypes) emptyDB).db.measurements,
      x ∈ emptyDB.measurements ∨
        x ∈ rowsOf ⟨7, "ab".toUpper, "", "", duMixedTypes.uplinkMessage⟩) ∧
    (∀ r ∈ rowsOf ⟨7, "ab".toUpper, "", "", duMixedTypes.uplinkMessage⟩,
      keyPresent (handleMessage envNoFail (some duMixedTypes) emptyDB).db r) ∧
    (handleMessage envNoFail (some duMixedTypes) emptyDB).summary =
      some ⟨(rowsOf ⟨7, "ab".toUpper, "", "", duMixedTypes.uplinkMessage⟩).length,
            (⟨7, "ab".toUpper, "", "", duMixedTypes.uplinkMessage⟩ : Parsed).stationEUI⟩ :=
  handleMessage_unknown_type_isolation envNoFail (some duMixedTypes) emptyDB
    ⟨7, "ab".toUpper, "", "", duMixedTypes.uplinkMessage⟩ rfl (fun _ => rfl)

end WeatherBus

namespace WeatherBus

/-- C8 counterexample: the run summary does not contain the count of rows
attempted.  Two runs — one attempting 2 rows with one injected failure,
one attempting 1 row with no failure — produce identical summaries, so no
component of the summary can be the attempted count. -/
theorem handleMessage_summary_no_attempted_count :
    (handleMessage envFailIdx1 (some duTwo) emptyDB).summary =
      (handleMessage envNoFail (some duOne) emptyDB).summary ∧
    (insertedRows (handleMessage envFailIdx1 (some duTwo) emptyDB).calls).length = 2 ∧
    (insertedRows (handleMessage envNoFail (some duOne) emptyDB).calls).length = 1 :=
  ⟨rfl, rfl, rfl⟩

/-- C8 amended: the summary reported at the end of an ingestion run
contains the count of measurement rows successfully persisted and the
station EUI (but no attempted count). -/
theorem handleMessage_summary_amended (env : Env) (u : Option DirectUp) (db : DB)
    (p : Parsed) (hp : parseUplink u env.now = Except.ok p) :
    (handleMessage env u db).summary =
      some ⟨(okRows env (rowsOf p)).length, p.stationEUI⟩ := by
  obtain ⟨pre, heq, -, -⟩ := handleMessage_ok_eq env u db p hp
  rw [heq]

/-- Witness for `handleMessage_summary_amended`. -/
theorem handleMessage_summary_amended_witness :
    (handleMessage envNoFail (some duOne) emptyDB).summary =
      some ⟨(okRows envNoFail
              (rowsOf ⟨7, "ab".toUpper, "", "", duOne.uplinkMessage⟩)).length,
            (⟨7, "ab".toUpper, "", "", duOne.uplinkMessage⟩ : Parsed).stationEUI⟩ :=
  handleMessage_summary_amended envNoFail (some duOne) emptyDB
    ⟨7, "ab".toUpper, "", "", duOne.uplinkMessage⟩ rfl

/-- C10: with no injected failures, a run reports one success per
valid-typed reading even when an insert takes the duplicate-key
`ON CONFLICT DO NOTHING` path, and re-ingesting the same record reports
the same count — positive when any valid reading exists — while adding
zero new measurement rows. -/
theorem handleMessage_duplicate_idempotent (env : Env) (u : Option DirectUp) (db : DB)
    (p : Parsed) (hp : parseUplink u env.now = Except.ok p)
    (hnf : ∀ r, env.insertFails r = false) :
    (handleMessage env u db).summary = some ⟨(rowsOf p).length, p.stationEUI⟩ ∧
    (handleMessage env u (handleMessage env u db).db).summary =
      (handleMessage env u db).summary ∧
    (handleMessage env u (handleMessage env u db).db).db.measurements =
      (handleMessage env u db).db.measurements ∧
    (rowsOf p ≠ [] → 0 < (rowsOf p).length) := by
  obtain ⟨pre1, heq1, hm1, -⟩ := handleMessage_ok_eq env u db p hp
  obtain ⟨pre2, heq2, hm2, -⟩ := handleMessage_ok_eq env u (handleMessage env u db).db p hp
  rw [okRows_nofail env _ hnf] at heq1 heq2
  have hkeys : ∀ r ∈ rowsOf p, keyPresent (handleMessage env u db).db r := by
    intro r hr
    rw [heq1]
    exact foldInsert_keyPresent _ _ r hr
  have hfold2 : foldInsert pre2.1 (rowsOf p) = pre2.1 := by
    apply foldInsert_id
    intro r hr
    exact (keyPresent_congr pre2.1 (handleMessage env u db).db r hm2).mpr (hkeys r hr)
  refine ⟨by rw [heq1], by rw [heq2, heq1], ?_, fun hne => List.length_pos.mpr hne⟩
  rw [heq2]
  dsimp only
  rw [hfold2, hm2]

/-- Witness for `handleMessage_duplicate_idempotent` at a document with
two valid readings and an initially empty database. -/
theorem handleMessage_duplicate_idempotent_witness :
    (handleMessage envNoFail (some duTwo) emptyDB).summary =
      some ⟨(rowsOf ⟨7, "ab".toUpper, "", "", duTwo.uplinkMessage⟩).length,
            (⟨7, "ab".toUpper, "", "", duTwo.uplinkMessage⟩ : Parsed).stationEUI⟩ ∧
    (handleMessage envNoFail (some duTwo)
        (handleMessage envNoFail (some duTwo) emptyDB).db).summary =
      (handleMessage envNoFail (some duTwo) emptyDB).summary ∧
    (handleMessage envNoFail (some duTwo)
        (handleMessage envNoFail (some duTwo) emptyDB).db).db.measurements =
      (handleMessage envNoFail (some duTwo) emptyDB).db.measurements ∧
    (rowsOf ⟨7, "ab".toUpper, "", "", duTwo.uplinkMessage⟩ ≠ [] →
      0 < (rowsOf ⟨7, "ab".toUpper, "", "", duTwo.uplinkMessage⟩).length) :=
  handleMessage_duplicate_idempotent envNoFail (some duTwo) emptyDB
    ⟨7, "ab".toUpper, "", "", duTwo.uplinkMessage⟩ rfl (fun _ => rfl)

end WeatherBus
